import Mathlib

/-!
Shallow embedding of the Camoufox browser-pool server
(`src/server/python-service/server.py`) and proofs about its
worker-pool lifecycle manager: endpoint discovery, port publishing,
the pool registry, the status service and the shutdown sequence.

Strings from the Python side are modelled as `List Char`; the regular
expressions used by the source are embedded as explicit scanning
functions with the same leftmost-match, greedy semantics.
-/

set_option maxRecDepth 4000

/-- Characters matched by Python's `\s` (and stripped by `str.strip()`)
in the ASCII/Latin-1 range, which covers every input the server handles. -/
def isPySpace (c : Char) : Bool :=
  c == ' ' || c == '\t' || c == '\n' || c == '\r' || c == '\x0b' || c == '\x0c' ||
  c == '\x1c' || c == '\x1d' || c == '\x1e' || c == '\x1f' || c == '\x85' || c == '\xa0'

/-- Characters admitted by the character class `[^\s\x1b]` of the endpoint
regex `(wss?://[^\s\x1b]+)` at server.py line 277. -/
def isUriChar (c : Char) : Bool :=
  !isPySpace c && c != '\x1b'

/-- `str.strip()`: drop leading and trailing whitespace. -/
def pyStrip (l : List Char) : List Char :=
  ((l.dropWhile isPySpace).reverse.dropWhile isPySpace).reverse

/-- Does `l` start with the pattern `pat`? -/
def listStartsWith : List Char → List Char → Bool
  | [], _ => true
  | _ :: _, [] => false
  | p :: ps, c :: cs => p == c && listStartsWith ps cs

/-- Python's substring test `pat in l`. -/
def hasSub (pat : List Char) : List Char → Bool
  | [] => listStartsWith pat []
  | c :: cs => listStartsWith pat (c :: cs) || hasSub pat cs

/-- Longest run of `[^\s\x1b]` characters at the head of the list
(the greedy `+` of the endpoint regex). -/
def takeUriChars : List Char → List Char
  | [] => []
  | c :: cs => if isUriChar c then c :: takeUriChars cs else []

/-- One attempt of the regex `(wss?://[^\s\x1b]+)` anchored at the head of
`cs`: the alternation `wss?` prefers the longer literal `wss`, and the
character class must match at least one character. -/
def matchUriAt (cs : List Char) : Option (List Char) :=
  if listStartsWith "wss://".data cs then
    match takeUriChars (cs.drop 6) with
    | [] => none
    | body => some ("wss://".data ++ body)
  else if listStartsWith "ws://".data cs then
    match takeUriChars (cs.drop 5) with
    | [] => none
    | body => some ("ws://".data ++ body)
  else none

/-- `re.search(r'(wss?://[^\s\x1b]+)', line)`: leftmost match wins. -/
def findUri : List Char → Option (List Char)
  | [] => none
  | c :: cs =>
    match matchUriAt (c :: cs) with
    | some u => some u
    | none => findUri cs

/-- The guard `'ws://' in line or 'wss://' in line` at server.py line 276. -/
def containsWsScheme (l : List Char) : Bool :=
  hasSub "ws://".data l || hasSub "wss://".data l

/-- Processing of a single stdout line by the discovery loop of
`launch_browser_instance` (server.py lines 276-279): if the line mentions a
WebSocket scheme and the endpoint regex matches, the stripped first match is
the discovered endpoint and the loop breaks; otherwise the loop continues. -/
def processLine (line : List Char) : Option (List Char) :=
  if containsWsScheme line then (findUri line).map pyStrip else none

/-- The discovery loop `for line in process.stdout` of
`launch_browser_instance`: scan lines in order until one yields an endpoint;
a stream that closes first yields nothing. -/
def discoverEndpoint : List (List Char) → Option (List Char)
  | [] => none
  | l :: ls =>
    match processLine l with
    | some u => some u
    | none => discoverEndpoint ls

/-- Render a natural number in decimal (the f-string interpolation
`f"browser_{i}"` / `f"ws://localhost:{proxy_port}/{path}"`).
Implemented with a fuel argument so the definition reduces in the kernel;
`fuel ≥ n` always suffices. -/
def natToDigitsAux : Nat → Nat → List Char
  | 0, n => [Nat.digitChar (n % 10)]
  | fuel + 1, n =>
    if n < 10 then [Nat.digitChar n]
    else natToDigitsAux fuel (n / 10) ++ [Nat.digitChar (n % 10)]

/-- Decimal rendering of a natural number, `str(n)` in Python. -/
def natToDigits (n : Nat) : List Char := natToDigitsAux n n

/-- Python's `int(s)` on a string of decimal digits. -/
def parseNat (cs : List Char) : Nat :=
  cs.foldl (fun a c => a * 10 + (c.toNat - 48)) 0

/-- The slot id `f"browser_{i}"` built in `main` (server.py line 404). -/
def mkBrowserId (i : Nat) : List Char :=
  'b' :: 'r' :: 'o' :: 'w' :: 's' :: 'e' :: 'r' :: '_' :: natToDigits i

/-- `browser_id.split('_')[1]`: the segment between the first and second
underscore of the slot id (server.py line 286). -/
def fieldAfterUnderscore (cs : List Char) : List Char :=
  ((cs.dropWhile (fun c => c != '_')).drop 1).takeWhile (fun c => c != '_')

/-- `int(browser_id.split('_')[1])` (server.py line 286). -/
def browserIndexOf (id : List Char) : Nat :=
  parseNat (fieldAfterUnderscore id)

/-- Longest run of decimal digits at the head of the list (the greedy `\d+`
of the port regex). -/
def leadingDigits : List Char → List Char
  | [] => []
  | c :: cs => if c.isDigit then c :: leadingDigits cs else []

/-- One attempt of the regex `:(\d+)/` anchored at the head of the list:
a colon, then at least one digit, then a slash. -/
def matchPortAt : List Char → Option Nat
  | ':' :: rest =>
    (match leadingDigits rest with
     | [] => none
     | ds =>
       match rest.drop ds.length with
       | '/' :: _ => some (parseNat ds)
       | _ => none)
  | _ => none

/-- `re.search(r':(\d+)/', ws_endpoint)` (server.py line 282): leftmost
colon-digits-slash group, parsed as the dynamic port. -/
def extractPort : List Char → Option Nat
  | [] => none
  | c :: cs =>
    match matchPortAt (c :: cs) with
    | some n => some n
    | none => extractPort cs

/-- Count of `'/'` characters, `ws_endpoint.count('/')`. -/
def countSlash (cs : List Char) : Nat :=
  (cs.filter (fun c => c == '/')).length

/-- Drop everything up to and including the n-th slash. -/
def afterSlash : Nat → List Char → List Char
  | _, [] => []
  | 0, cs => cs
  | n + 1, c :: cs => if c == '/' then afterSlash n cs else afterSlash (n + 1) cs

/-- `ws_endpoint.split('/', 3)[-1] if ws_endpoint.count('/') >= 3 else ''`
(server.py line 295): the path part of the discovered endpoint. -/
def pathFromEndpoint (u : List Char) : List Char :=
  if countSlash u ≥ 3 then afterSlash 3 u else []

/-- Lifecycle status strings stored in `browser_pool` entries. The code
only ever stores `'ready'`; the other statuses appear in the spec's data
model and in the metrics/readiness filters. -/
inductive SlotStatus
  | starting | ready | busy | failed | terminated
deriving DecidableEq

/-- One value of the `browser_pool` dict (server.py lines 303-319).
Fields that a branch does not set are `none`; the opaque `Popen` handle is
modelled by a numeric process id. -/
structure SlotInfo where
  endpoint : List Char
  originalEndpoint : Option (List Char)
  proxyPort : Option Nat
  dynamicPort : Option Nat
  procId : Nat
  status : SlotStatus
deriving DecidableEq

instance : Inhabited SlotInfo :=
  ⟨{ endpoint := [], originalEndpoint := none, proxyPort := none,
     dynamicPort := none, procId := 0, status := .ready }⟩

/-- The registry entry written by `launch_browser_instance` once an endpoint
`u` has been discovered (server.py lines 281-320): extract the dynamic port;
on success compute the fixed proxy port from the slot id, and publish either
the socat-proxied endpoint (socat started) or the raw dynamic endpoint
(socat failed); if no port can be extracted, fall back to the raw endpoint. -/
def buildEntry (basePort : Nat) (browserId : List Char) (procId : Nat)
    (socatOk : Bool) (u : List Char) : SlotInfo :=
  match extractPort u with
  | some dyn =>
    if socatOk then
      { endpoint := "ws://localhost:".data ++ natToDigits (basePort + browserIndexOf browserId)
          ++ '/' :: pathFromEndpoint u,
        originalEndpoint := some u,
        proxyPort := some (basePort + browserIndexOf browserId),
        dynamicPort := some dyn, procId := procId, status := .ready }
    else
      { endpoint := u, originalEndpoint := some u, proxyPort := none,
        dynamicPort := some dyn, procId := procId, status := .ready }
  | none =>
    { endpoint := u, originalEndpoint := none, proxyPort := none,
      dynamicPort := none, procId := procId, status := .ready }

/-- Python dict assignment `browser_pool[browser_id] = {...}` on an
insertion-ordered association list: replace in place if the key exists,
otherwise append. -/
def dictInsert (k : List Char) (v : SlotInfo) (m : List (List Char × SlotInfo)) :
    List (List Char × SlotInfo) :=
  if m.any (fun e => decide (e.1 = k)) then
    m.map (fun e => if e.1 = k then (k, v) else e)
  else m ++ [(k, v)]

/-- Python dict lookup `browser_pool.get(browser_id)`. -/
def dictFind (k : List Char) (m : List (List Char × SlotInfo)) : Option SlotInfo :=
  (m.find? (fun e => decide (e.1 = k))).map (fun e => e.2)

/-- The environment-determined outcome of one `launch_browser_instance` call:
either `subprocess.Popen` (or the preceding configuration code) raised, or a
worker process started and produced the given stdout lines, with socat either
startable or not for this slot. -/
inductive LaunchOutcome
  | popenFail
  | started (lines : List (List Char)) (socatOk : Bool)

/-- Whether `launch_browser_instance` returns a process handle (it does
whenever the subprocess started, even if no endpoint was ever discovered;
only the `except` path returns `None`). -/
def launchReturnsProc : LaunchOutcome → Bool
  | .popenFail => false
  | .started _ _ => true

/-- Effect of one `launch_browser_instance(browser_id, port)` call on the
`browser_pool` registry (server.py lines 251-332): nothing on launch failure
or when the stream closes without discovering an endpoint; otherwise the slot
entry built by `buildEntry` is inserted under the slot id. -/
def launch_browser_instance (basePort : Nat) (pool : List (List Char × SlotInfo))
    (i : Nat) (o : LaunchOutcome) : List (List Char × SlotInfo) :=
  match o with
  | .popenFail => pool
  | .started lines socatOk =>
    match discoverEndpoint lines with
    | none => pool
    | some u => dictInsert (mkBrowserId i) (buildEntry basePort (mkBrowserId i) i socatOk u) pool

/-- The launch loop of `main` (server.py lines 402-415): slots are launched
one at a time in index order; the returned pair is the registry after the
pass and the length of the `processes` list (launches that returned a
handle). -/
def launch_pass (basePort : Nat) : Nat → List (List Char × SlotInfo) →
    List LaunchOutcome → List (List Char × SlotInfo) × Nat
  | _, pool, [] => (pool, 0)
  | i, pool, o :: os =>
    let pool1 := launch_browser_instance basePort pool i o
    let r := launch_pass basePort (i + 1) pool1 os
    (r.1, r.2 + if launchReturnsProc o then 1 else 0)

/-- Exit code of the process as a function of the launch outcomes
(server.py lines 417-419 and 370-373): `sys.exit(1)` when the `processes`
list is empty after the pass, and `0` on the clean-shutdown paths
(`signal_handler` calls `sys.exit(0)`; falling out of `main` exits 0). -/
def main_exit_code (basePort : Nat) (outcomes : List LaunchOutcome) : Nat :=
  if (launch_pass basePort 0 [] outcomes).2 = 0 then 1 else 0

/-- Number of registry entries with status `'ready'`, as computed by
`_handle_ready` and `_handle_metrics`. -/
def readyCount (pool : List (List Char × SlotInfo)) : Nat :=
  (pool.filter (fun e => decide (e.2.status = SlotStatus.ready))).length

/-- Number of registry entries with status `'busy'` (`_handle_metrics`,
server.py line 100). -/
def busyCount (pool : List (List Char × SlotInfo)) : Nat :=
  (pool.filter (fun e => decide (e.2.status = SlotStatus.busy))).length

/-- The JSON body and status code produced by `HealthHandler._handle_ready`. -/
structure ReadyResponse where
  code : Nat
  statusLabel : List Char
  browsersAvailable : Nat
  browsersTotal : Nat
  poolSize : Nat
deriving DecidableEq

/-- `HealthHandler._handle_ready` (server.py lines 74-91): HTTP 200 when
`server_ready and len(browser_pool) > 0`, else 503; the body always reports
the ready count, the registry size and the configured pool size. -/
def handle_ready (serverReady : Bool) (poolSize : Nat)
    (pool : List (List Char × SlotInfo)) : ReadyResponse :=
  if serverReady = true ∧ 0 < pool.length then
    { code := 200, statusLabel := "ready".data, browsersAvailable := readyCount pool,
      browsersTotal := pool.length, poolSize := poolSize }
  else
    { code := 503, statusLabel := "not_ready".data, browsersAvailable := readyCount pool,
      browsersTotal := pool.length, poolSize := poolSize }

/-- The four gauges exposed by `HealthHandler._handle_metrics`
(server.py lines 93-118). -/
structure MetricsView where
  browsersTotal : Nat
  browsersReady : Nat
  browsersBusy : Nat
  poolSize : Nat
deriving DecidableEq

/-- `HealthHandler._handle_metrics`: gauges recomputed from the registry. -/
def handle_metrics (poolSize : Nat) (pool : List (List Char × SlotInfo)) : MetricsView :=
  { browsersTotal := pool.length, browsersReady := readyCount pool,
    browsersBusy := busyCount pool, poolSize := poolSize }

/-- Split off the scheme `wss://` or `ws://` at the head of the list: the
`(wss?://)` group of the rewrite regex, preferring the longer literal. -/
def schemeSplit (cs : List Char) : Option (List Char × List Char) :=
  if listStartsWith "wss://".data cs then some ("wss://".data, cs.drop 6)
  else if listStartsWith "ws://".data cs then some ("ws://".data, cs.drop 5)
  else none

/-- The host and path groups `([^/]+)(/.+)?` of the rewrite regex, applied
after the scheme group: a non-empty host of non-slash characters, then an
optional path group of a slash followed by at least one non-newline
character (`.` does not match a newline). Returns the scheme and the path
group (empty when the optional group does not participate). -/
def hostPathOf (proto rest : List Char) : Option (List Char × List Char) :=
  if (rest.takeWhile (fun c => c != '/')).isEmpty then none
  else
    match rest.drop (rest.takeWhile (fun c => c != '/')).length with
    | '/' :: t =>
      if (t.takeWhile (fun c => c != '\n')).isEmpty then some (proto, [])
      else some (proto, '/' :: t.takeWhile (fun c => c != '\n'))
    | _ => some (proto, [])

/-- One attempt of the regex `(wss?://)([^/]+)(/.+)?` anchored at the head
of the list (server.py line 135). -/
def matchHostPathAt (cs : List Char) : Option (List Char × List Char) :=
  match schemeSplit cs with
  | none => none
  | some (proto, rest) => hostPathOf proto rest

/-- `re.search(r'(wss?://)([^/]+)(/.+)?', endpoint)`: leftmost match. -/
def searchWsHostPath : List Char → Option (List Char × List Char)
  | [] => none
  | c :: cs =>
    match matchHostPathAt (c :: cs) with
    | some r => some r
    | none => searchWsHostPath cs

/-- Python `s.replace(pat, rep)`: left-to-right, non-overlapping, without
rescanning the replacement text. Fuel-indexed so the kernel can reduce it;
`replaceAll` supplies `s.length`, which always suffices. -/
def replaceAllFuel (pat rep : List Char) : Nat → List Char → List Char
  | _, [] => []
  | 0, s => s
  | fuel + 1, c :: cs =>
    if listStartsWith pat (c :: cs) ∧ pat ≠ [] then
      rep ++ replaceAllFuel pat rep fuel (List.drop (pat.length - 1) cs)
    else c :: replaceAllFuel pat rep fuel cs

/-- Python `s.replace(pat, rep)`. -/
def replaceAll (pat rep s : List Char) : List Char :=
  replaceAllFuel pat rep s.length s

/-- `rewrite_endpoint` inside `HealthHandler._handle_browsers`
(server.py lines 126-142): no rewriting for a falsy endpoint or the default
advertise host; an advertise host containing `':'` replaces the host:port
group of the regex match (dropping everything the optional path group does
not capture); a bare advertise host textually replaces every occurrence of
`'localhost'` and then `'127.0.0.1'`. -/
def rewrite_endpoint (adv ep : List Char) : List Char :=
  if ep ≠ [] ∧ adv ≠ "localhost".data then
    if ':' ∈ adv then
      match searchWsHostPath ep with
      | some (proto, path) => proto ++ adv ++ path
      | none => ep
    else
      replaceAll "127.0.0.1".data adv (replaceAll "localhost".data adv ep)
  else ep

/-- Shutdown actions emitted by `cleanup_browsers`, in order. -/
inductive CAction
  | termWorker (slotId : List Char)
  | termForwarder (pid : Nat)
  | unlinkEndpointFile
deriving DecidableEq

/-- `CAction.termWorker`? -/
def isWorkerTermination : CAction → Bool
  | .termWorker _ => true
  | _ => false

/-- `CAction.termForwarder`? -/
def isForwarderTermination : CAction → Bool
  | .termForwarder _ => true
  | _ => false

/-- Is some action satisfying `p` followed, strictly later in the list, by
an action satisfying `q`? -/
def anyFollowedBy (p q : CAction → Bool) : List CAction → Bool
  | [] => false
  | a :: tr => (p a && tr.any q) || anyFollowedBy p q tr

/-- Global server state relevant to shutdown: the registry, the
`socat_processes` list, which worker and forwarder OS processes are still
running (`poll() is None`), whether the endpoint file exists, and the
`shutdown_requested` flag. -/
structure ServerState where
  pool : List (List Char × SlotInfo)
  socats : List Nat
  aliveWorkers : List Nat
  aliveForwarders : List Nat
  endpointFileExists : Bool
  shutdownRequested : Bool
deriving DecidableEq

/-- The sequence of externally visible actions of one `cleanup_browsers`
call (server.py lines 335-367): terminate every still-running worker process
of the registry in order, then every still-running socat process, then
delete the endpoint file if it exists. -/
def cleanup_browsers_trace (s : ServerState) : List CAction :=
  ((s.pool.filter (fun e => decide (e.2.procId ∈ s.aliveWorkers))).map
      (fun e => CAction.termWorker e.1))
  ++ ((s.socats.filter (fun pid => decide (pid ∈ s.aliveForwarders))).map
      CAction.termForwarder)
  ++ (if s.endpointFileExists then [CAction.unlinkEndpointFile] else [])

/-- The state after `cleanup_browsers`: `shutdown_requested` is set, every
worker process referenced by the registry and every socat process is dead
(`terminate` escalates to `kill` on timeout, so termination always
succeeds), and the endpoint file is gone. The registry itself is never
written by `cleanup_browsers`. -/
def cleanup_browsers (s : ServerState) : ServerState :=
  { s with
    shutdownRequested := true,
    aliveWorkers := s.aliveWorkers.filter
      (fun pid => decide (∀ e ∈ s.pool, e.2.procId ≠ pid)),
    aliveForwarders := s.aliveForwarders.filter (fun pid => decide (pid ∉ s.socats)),
    endpointFileExists := false }

/-- Registry states reachable by the Lifecycle Manager: the registry starts
empty and is only ever written by `launch_browser_instance`
(`cleanup_browsers` does not touch it). -/
inductive ReachablePool : List (List Char × SlotInfo) → Prop
  | init : ReachablePool []
  | step (basePort i : Nat) (o : LaunchOutcome) (p : List (List Char × SlotInfo)) :
      ReachablePool p → ReachablePool (launch_browser_instance basePort p i o)

example : discoverEndpoint ["listening at ws://127.0.0.1:54321/abc".data] =
    some "ws://127.0.0.1:54321/abc".data := by decide

example : findUri "see ws://first/a and ws://second/b".data =
    some "ws://first/a".data := by decide

example : natToDigits 8080 = "8080".data := by decide

example : browserIndexOf (mkBrowserId 2) = 2 := by decide

example : extractPort "ws://127.0.0.1:54321/abc".data = some 54321 := by decide

example : pathFromEndpoint "ws://127.0.0.1:54321/abc/d".data = "abc/d".data := by decide

example : rewrite_endpoint "example.com".data "ws://localhost:3001/s1".data =
    "ws://example.com:3001/s1".data := by decide

example : rewrite_endpoint "example.com:9000".data "ws://localhost:3001/s1".data =
    "ws://example.com:9000/s1".data := by decide

example : rewrite_endpoint "example.com".data "ws://localhost:3001/localhost".data =
    "ws://example.com:3001/example.com".data := by decide

example :
    (dictFind (mkBrowserId 0)
      (launch_browser_instance 8080 [] 0
        (.started ["wss://127.0.0.1:5000/s".data] true))).map (fun e => e.endpoint) =
    some "ws://localhost:8080/s".data := by decide

example :
    (dictFind (mkBrowserId 0)
      (launch_browser_instance 8080 [] 0
        (.started ["listening at ws://127.0.0.1:54321/abc".data] false))).map
        (fun e => (e.endpoint, decide (e.status = .ready))) =
    some ("ws://127.0.0.1:54321/abc".data, true) := by decide

example :
    launch_browser_instance 8080 [] 0 (.started ["Browser starting...".data] true) = [] := by
  decide

example : main_exit_code 8080 [.started [] true] = 0 := by decide
example : main_exit_code 8080 [.popenFail] = 1 := by decide

/-! ### Helper lemmas: decimal rendering and parsing -/

theorem digitChar_facts : ∀ d < 10,
    (Nat.digitChar d).toNat - 48 = d ∧ Nat.digitChar d ≠ '_' := by decide

theorem foldl_digits_aux (fuel : Nat) : ∀ n a, n ≤ fuel →
    List.foldl (fun a c => a * 10 + (c.toNat - 48)) a (natToDigitsAux fuel n) =
      a * 10 ^ (natToDigitsAux fuel n).length + n := by
  induction fuel with
  | zero =>
    intro n a h
    interval_cases n
    have hd : (Nat.digitChar 0).toNat - 48 = 0 := by decide
    simp [natToDigitsAux, List.foldl, hd]
  | succ fuel ih =>
    intro n a h
    by_cases h10 : n < 10
    · have hd := (digitChar_facts n h10).1
      simp [natToDigitsAux, if_pos h10, List.foldl, hd]
    · simp only [natToDigitsAux, if_neg h10]
      have hfuel : n / 10 ≤ fuel := by omega
      have hrec := ih (n / 10) a hfuel
      have hd := (digitChar_facts (n % 10) (by omega)).1
      rw [List.foldl_append, hrec]
      simp only [List.foldl, hd, List.length_append, List.length_cons, List.length_nil]
      have hmod : n / 10 * 10 + n % 10 = n := by omega
      calc (a * 10 ^ (natToDigitsAux fuel (n / 10)).length + n / 10) * 10 + n % 10
          = a * (10 ^ (natToDigitsAux fuel (n / 10)).length * 10) +
              (n / 10 * 10 + n % 10) := by ring
        _ = a * 10 ^ ((natToDigitsAux fuel (n / 10)).length + 0 + 1) + n := by
              rw [hmod, pow_succ]

theorem parseNat_natToDigits (n : Nat) : parseNat (natToDigits n) = n := by
  have h := foldl_digits_aux n n 0 le_rfl
  simpa [parseNat, natToDigits] using h

theorem natToDigitsAux_no_underscore (fuel : Nat) : ∀ n c,
    c ∈ natToDigitsAux fuel n → c ≠ '_' := by
  induction fuel with
  | zero =>
    intro n c hc
    simp only [natToDigitsAux, List.mem_singleton] at hc
    subst hc
    exact (digitChar_facts (n % 10) (by omega)).2
  | succ fuel ih =>
    intro n c hc
    by_cases h10 : n < 10
    · simp only [natToDigitsAux, if_pos h10, List.mem_singleton] at hc
      subst hc
      exact (digitChar_facts n h10).2
    · simp only [natToDigitsAux, if_neg h10, List.mem_append, List.mem_singleton] at hc
      rcases hc with hc | hc
      · exact ih (n / 10) c hc
      · subst hc
        exact (digitChar_facts (n % 10) (by omega)).2

theorem takeWhile_all_eq {p : Char → Bool} : ∀ l : List Char,
    (∀ c ∈ l, p c = true) → l.takeWhile p = l := by
  intro l
  induction l with
  | nil => intro _; rfl
  | cons a l ih =>
    intro h
    have ha := h a (by simp)
    simp [List.takeWhile_cons, ha, ih (fun c hc => h c (by simp [hc]))]

theorem browserIndexOf_mkBrowserId (i : Nat) : browserIndexOf (mkBrowserId i) = i := by
  have h2 : List.dropWhile (fun c => c != '_') (mkBrowserId i) = '_' :: natToDigits i := rfl
  have h3 : fieldAfterUnderscore (mkBrowserId i) =
      (natToDigits i).takeWhile (fun c => c != '_') := by
    rw [fieldAfterUnderscore, h2]
    rfl
  have h4 : (natToDigits i).takeWhile (fun c => c != '_') = natToDigits i := by
    apply takeWhile_all_eq
    intro c hc
    simpa [bne_iff_ne] using natToDigitsAux_no_underscore i i c hc
  rw [browserIndexOf, h3, h4, parseNat_natToDigits]

/-! ### Helper lemmas: dictionary model -/

theorem find?_append_of_none {p : (List Char × SlotInfo) → Bool}
    (m l2 : List (List Char × SlotInfo)) (h : m.find? p = none) :
    (m ++ l2).find? p = l2.find? p := by
  induction m with
  | nil => rfl
  | cons a m ih =>
    cases hpa : p a with
    | true =>
      rw [List.find?_cons_of_pos _ hpa] at h
      exact absurd h (by simp)
    | false =>
      rw [List.find?_cons_of_neg _ (by simp [hpa])] at h
      rw [List.cons_append, List.find?_cons_of_neg _ (by simp [hpa])]
      exact ih h

theorem find?_map_replace (k : List Char) (v : SlotInfo) :
    ∀ m : List (List Char × SlotInfo), m.any (fun e => decide (e.1 = k)) = true →
      (m.map (fun e => if e.1 = k then (k, v) else e)).find?
          (fun e => decide (e.1 = k)) = some (k, v) := by
  intro m
  induction m with
  | nil => intro h; simp at h
  | cons a m ih =>
    intro h
    by_cases ha : a.1 = k
    · rw [List.map_cons, if_pos ha]
      exact List.find?_cons_of_pos _ (by simp)
    · rw [List.map_cons, if_neg ha, List.find?_cons_of_neg _ (by simp [ha])]
      apply ih
      rcases (List.any_eq_true).1 h with ⟨x, hx, hxk⟩
      rcases List.mem_cons.1 hx with rfl | hxm
      · exact absurd (of_decide_eq_true hxk) ha
      · exact (List.any_eq_true).2 ⟨x, hxm, hxk⟩

theorem dictFind_dictInsert (k : List Char) (v : SlotInfo)
    (m : List (List Char × SlotInfo)) : dictFind k (dictInsert k v m) = some v := by
  unfold dictInsert
  by_cases h : m.any (fun e => decide (e.1 = k)) = true
  · rw [if_pos h]
    unfold dictFind
    rw [find?_map_replace k v m h]
    rfl
  · rw [if_neg h]
    have hnone : m.find? (fun e => decide (e.1 = k)) = none := by
      rw [List.find?_eq_none]
      intro x hx hpx
      apply h
      exact (List.any_eq_true).2 ⟨x, hx, hpx⟩
    unfold dictFind
    rw [find?_append_of_none m [(k, v)] hnone]
    rw [List.find?_cons_of_pos _ (by simp)]
    rfl

theorem mem_dictInsert {e : List Char × SlotInfo} {k : List Char} {v : SlotInfo}
    {m : List (List Char × SlotInfo)} (h : e ∈ dictInsert k v m) :
    e = (k, v) ∨ e ∈ m := by
  unfold dictInsert at h
  by_cases hc : m.any (fun e => decide (e.1 = k)) = true
  · rw [if_pos hc] at h
    obtain ⟨x, hx, hfx⟩ := List.mem_map.1 h
    by_cases hxk : x.1 = k
    · left; rw [← hfx, if_pos hxk]
    · right; rw [← hfx, if_neg hxk]; exact hx
  · rw [if_neg hc] at h
    rcases List.mem_append.1 h with h1 | h1
    · right; exact h1
    · left; simpa using h1

/-! ### Helper lemmas: endpoint discovery -/

theorem listStartsWith_hasSub {pat l : List Char}
    (h : listStartsWith pat l = true) : hasSub pat l = true := by
  cases l with
  | nil => simpa [hasSub] using h
  | cons c cs => simp [hasSub, h]

theorem hasSub_cons {pat : List Char} {c : Char} {cs : List Char}
    (h : hasSub pat cs = true) : hasSub pat (c :: cs) = true := by
  simp [hasSub, h]

theorem matchUriAt_shape {cs u : List Char} (h : matchUriAt cs = some u) :
    (listStartsWith "wss://".data cs = true ∨ listStartsWith "ws://".data cs = true) ∧
      ∃ t, u = 'w' :: t := by
  unfold matchUriAt at h
  by_cases h1 : listStartsWith "wss://".data cs = true
  · rw [if_pos h1] at h
    refine ⟨Or.inl h1, ?_⟩
    cases htc : takeUriChars (cs.drop 6) with
    | nil => rw [htc] at h; exact absurd h (by simp)
    | cons a b =>
      rw [htc] at h
      exact ⟨_, (Option.some_injective _ h).symm⟩
  · rw [if_neg h1] at h
    by_cases h2 : listStartsWith "ws://".data cs = true
    · rw [if_pos h2] at h
      refine ⟨Or.inr h2, ?_⟩
      cases htc : takeUriChars (cs.drop 5) with
      | nil => rw [htc] at h; exact absurd h (by simp)
      | cons a b =>
        rw [htc] at h
        exact ⟨_, (Option.some_injective _ h).symm⟩
    · rw [if_neg h2] at h
      exact absurd h (by simp)

theorem findUri_scheme {l u : List Char} (h : findUri l = some u) :
    containsWsScheme l = true := by
  induction l with
  | nil => exact absurd h (by simp [findUri])
  | cons c cs ih =>
    rw [findUri] at h
    cases hm : matchUriAt (c :: cs) with
    | some u0 =>
      rcases (matchUriAt_shape hm).1 with hs | hs
      · simp [containsWsScheme, listStartsWith_hasSub hs]
      · simp [containsWsScheme, listStartsWith_hasSub hs]
    | none =>
      rw [hm] at h
      have := ih h
      simp only [containsWsScheme, Bool.or_eq_true] at this ⊢
      rcases this with h1 | h1
      · exact Or.inl (hasSub_cons h1)
      · exact Or.inr (hasSub_cons h1)

theorem findUri_shape {l u : List Char} (h : findUri l = some u) :
    ∃ t, u = 'w' :: t := by
  induction l with
  | nil => exact absurd h (by simp [findUri])
  | cons c cs ih =>
    rw [findUri] at h
    cases hm : matchUriAt (c :: cs) with
    | some u0 =>
      rw [hm] at h
      obtain ⟨t, ht⟩ := (matchUriAt_shape hm).2
      exact ⟨t, by rw [← (Option.some_injective _ h)]; exact ht⟩
    | none =>
      rw [hm] at h
      exact ih h

theorem pyStrip_w_ne_nil (t : List Char) : pyStrip ('w' :: t) ≠ [] := by
  unfold pyStrip
  have h1 : List.dropWhile isPySpace ('w' :: t) = 'w' :: t := rfl
  rw [h1]
  intro hemp
  have h2 : List.dropWhile isPySpace ('w' :: t).reverse = [] := by
    have := congrArg List.reverse hemp
    simpa using this
  have h3 := (List.dropWhile_eq_nil_iff).1 h2 'w' (by simp)
  exact absurd h3 (by decide)

theorem discoverEndpoint_ne_nil {ls : List (List Char)} {u : List Char}
    (h : discoverEndpoint ls = some u) : u ≠ [] := by
  induction ls with
  | nil => exact absurd h (by simp [discoverEndpoint])
  | cons l ls ih =>
    rw [discoverEndpoint] at h
    cases hp : processLine l with
    | some u0 =>
      rw [hp] at h
      rw [← Option.some_injective _ h]
      unfold processLine at hp
      by_cases hc : containsWsScheme l = true
      · rw [if_pos hc] at hp
        cases hf : findUri l with
        | none => rw [hf] at hp; exact absurd hp (by simp)
        | some u1 =>
          rw [hf] at hp
          obtain ⟨t, ht⟩ := findUri_shape hf
          have : u0 = pyStrip u1 := by
            simpa using hp.symm
          rw [this, ht]
          exact pyStrip_w_ne_nil t
      · rw [if_neg hc] at hp
        exact absurd hp (by simp)
    | none =>
      rw [hp] at h
      exact ih h

/-! ### Helper lemmas: counting, launch pass, shutdown traces -/

theorem counts_of_all_ready {p : List (List Char × SlotInfo)}
    (h : ∀ e ∈ p, e.2.status = SlotStatus.ready) :
    busyCount p = 0 ∧ readyCount p = p.length := by
  induction p with
  | nil => simp [busyCount, readyCount]
  | cons a p ih =>
    have ha := h a (by simp)
    have ih2 := ih (fun e he => h e (by simp [he]))
    have hqa : decide (a.2.status = SlotStatus.busy) = false := by
      rw [ha]; rfl
    have hra : decide (a.2.status = SlotStatus.ready) = true := by
      rw [ha]; rfl
    constructor
    · simp only [busyCount, List.filter_cons, hqa, Bool.false_eq_true, if_false]
      exact ih2.1
    · simp only [readyCount, List.filter_cons, hra, if_true, List.length_cons]
      have := ih2.2
      simp only [readyCount] at this
      rw [this]

theorem launch_pass_count (basePort : Nat) : ∀ (os : List LaunchOutcome)
    (i : Nat) (pool : List (List Char × SlotInfo)),
    (launch_pass basePort i pool os).2 = (os.filter launchReturnsProc).length := by
  intro os
  induction os with
  | nil => intro i pool; rfl
  | cons o os ih =>
    intro i pool
    rw [launch_pass]
    simp only [List.filter_cons]
    cases ho : launchReturnsProc o
    · simp [ho, ih]
    · simp [ho, ih]

theorem anyFollowedBy_of_no_q {p q : CAction → Bool} : ∀ tr : List CAction,
    (∀ a ∈ tr, q a = false) → anyFollowedBy p q tr = false := by
  intro tr
  induction tr with
  | nil => intro _; rfl
  | cons a tr ih =>
    intro h
    rw [anyFollowedBy]
    have hany : tr.any q = false := by
      rw [List.any_eq_false]
      intro x hx
      simp [h x (by simp [hx])]
    simp [hany, ih (fun x hx => h x (by simp [hx]))]

theorem anyFollowedBy_append_of_no_p_no_q {p q : CAction → Bool} :
    ∀ l1 l2 : List CAction, (∀ a ∈ l1, p a = false) → (∀ a ∈ l2, q a = false) →
      anyFollowedBy p q (l1 ++ l2) = false := by
  intro l1
  induction l1 with
  | nil => intro l2 _ h2; exact anyFollowedBy_of_no_q l2 h2
  | cons a l1 ih =>
    intro l2 h1 h2
    rw [List.cons_append, anyFollowedBy]
    have hpa : p a = false := h1 a (by simp)
    simp [hpa, ih l2 (fun x hx => h1 x (by simp [hx])) h2]

theorem filter_idem {α : Type} (p : α → Bool) : ∀ l : List α,
    (l.filter p).filter p = l.filter p := by
  intro l
  induction l with
  | nil => rfl
  | cons a l ih =>
    cases ha : p a
    · simp [List.filter_cons, ha, ih]
    · simp [List.filter_cons, ha, ih]

/-! ### Claim theorems -/

/-- Demonstration state for the shutdown ordering: one ready slot whose
worker process is still running, one running socat forwarder, and an
existing endpoint file. -/
def shutdownDemoState : ServerState :=
  { pool := [(mkBrowserId 0,
      { endpoint := "ws://localhost:8080/abc".data, originalEndpoint := none,
        proxyPort := none, dynamicPort := none, procId := 0, status := .ready })],
    socats := [7], aliveWorkers := [0], aliveForwarders := [7],
    endpointFileExists := true, shutdownRequested := false }

/-- C1 counterexample: on a pool state with one live worker and one live
forwarder, `cleanup_browsers` emits the worker termination strictly before
the forwarder termination, so the shutdown sequence does not emit all
forwarder terminations before all worker terminations. -/
theorem c1_counterexample :
    anyFollowedBy isWorkerTermination isForwarderTermination
      (cleanup_browsers_trace shutdownDemoState) = true ∧
    cleanup_browsers_trace shutdownDemoState =
      [CAction.termWorker (mkBrowserId 0), CAction.termForwarder 7,
       CAction.unlinkEndpointFile] := by decide

/-- C1 (amended): the shutdown sequence of `cleanup_browsers` terminates all
still-running worker processes first and only then the socat forwarders:
for every server state, no forwarder-termination action is followed by a
worker-termination action in the shutdown trace. -/
theorem c1_workers_before_forwarders (s : ServerState) :
    anyFollowedBy isForwarderTermination isWorkerTermination
      (cleanup_browsers_trace s) = false := by
  unfold cleanup_browsers_trace
  rw [List.append_assoc]
  apply anyFollowedBy_append_of_no_p_no_q
  · intro a ha
    obtain ⟨e, he, rfl⟩ := List.mem_map.1 ha
    rfl
  · intro a ha
    rcases List.mem_append.1 ha with h1 | h1
    · obtain ⟨pid, hp, rfl⟩ := List.mem_map.1 h1
      rfl
    · cases hf : s.endpointFileExists
      · rw [hf] at h1
        simp at h1
      · rw [hf] at h1
        simp at h1
        subst h1
        rfl

/-- C1 witness: the amended ordering theorem applied to the demonstration
state. -/
theorem c1_witness :
    anyFollowedBy isForwarderTermination isWorkerTermination
      (cleanup_browsers_trace shutdownDemoState) = false :=
  c1_workers_before_forwarders shutdownDemoState

/-- C2 counterexample: a single slot whose worker process starts but never
prints an endpoint leaves zero ready slots after the launch pass, yet the
process does not exit non-zero (its exit code is 0, not non-zero). -/
theorem c2_counterexample :
    main_exit_code 8080 [LaunchOutcome.started [] true] = 0 ∧
      readyCount (launch_pass 8080 0 [] [LaunchOutcome.started [] true]).1 = 0 := by
  decide

/-- C2 (amended): the process exits non-zero iff no slot launch returned a
process handle, i.e. every `launch_browser_instance` call raised before
starting its subprocess. A worker that started but never published an
endpoint still counts as launched, so zero ready slots alone does not force
a non-zero exit; when at least one subprocess started the exit code is 0
(clean shutdown). -/
theorem c2_exit_nonzero_iff_no_proc (basePort : Nat) (outcomes : List LaunchOutcome) :
    main_exit_code basePort outcomes = 1 ↔
      ∀ o ∈ outcomes, launchReturnsProc o = false := by
  unfold main_exit_code
  rw [launch_pass_count basePort outcomes 0 []]
  by_cases hn : (outcomes.filter launchReturnsProc).length = 0
  · rw [if_pos hn]
    simp only [iff_true_intro rfl, true_iff]
    rw [List.length_eq_zero] at hn
    intro o ho
    by_contra hp
    have hmem : o ∈ outcomes.filter launchReturnsProc :=
      List.mem_filter.2 ⟨ho, by simpa using hp⟩
    rw [hn] at hmem
    simp at hmem
  · rw [if_neg hn]
    constructor
    · intro h
      exact absurd h (by decide)
    · intro h
      exfalso
      apply hn
      rw [List.length_eq_zero, List.filter_eq_nil_iff]
      intro a ha
      simp [h a ha]

/-- C2 witness: with every launch failing, the exit code is 1. -/
theorem c2_witness : main_exit_code 8080 [LaunchOutcome.popenFail] = 1 :=
  (c2_exit_nonzero_iff_no_proc 8080 [LaunchOutcome.popenFail]).2 (by decide)

/-- C4 counterexample: a worker whose output stream closes without any
endpoint URI leaves the registry unchanged — in particular empty — so the
slot is not recorded as `failed` in the registry. -/
theorem c4_counterexample :
    launch_browser_instance 8080 [] 0
        (.started ["Browser starting...".data] true) = [] ∧
      dictFind (mkBrowserId 0)
        (launch_browser_instance 8080 [] 0
          (.started ["Browser starting...".data] true)) = none := by
  decide

/-- C4 (amended): when a worker's output stream closes before any line
yields a connection-endpoint URI, discovery yields nothing and the registry
is left exactly as it was: the slot gets no registry entry at all (its id
maps to nothing); no `failed` status is recorded. -/
theorem c4_no_endpoint_no_entry (basePort : Nat) (pool : List (List Char × SlotInfo))
    (i : Nat) (lines : List (List Char)) (socatOk : Bool)
    (h : discoverEndpoint lines = none) :
    launch_browser_instance basePort pool i (.started lines socatOk) = pool := by
  simp only [launch_browser_instance]
  rw [h]

/-- C4 witness: the amended theorem applied to a concrete endpoint-free
stream. -/
theorem c4_witness :
    launch_browser_instance 8080 [] 1 (.started ["no uri on this line".data] false) = [] :=
  c4_no_endpoint_no_entry 8080 [] 1 ["no uri on this line".data] false (by decide)

/-- C9: `cleanup_browsers` is idempotent: a second invocation leaves the
state exactly as the first did, and its action trace is empty — it neither
re-terminates any already-terminated worker or forwarder process nor
attempts a second endpoint-file deletion. -/
theorem c9_cleanup_idempotent (s : ServerState) :
    cleanup_browsers (cleanup_browsers s) = cleanup_browsers s ∧
      cleanup_browsers_trace (cleanup_browsers s) = [] := by
  constructor
  · simp [cleanup_browsers, filter_idem]
  · have h1 : s.pool.filter (fun e => decide (e.2.procId ∈
        s.aliveWorkers.filter (fun pid => decide (∀ e2 ∈ s.pool, e2.2.procId ≠ pid)))) = [] := by
      rw [List.filter_eq_nil_iff]
      intro e he
      simp only [decide_eq_true_eq]
      intro hmem
      have h2 := (List.mem_filter.1 hmem).2
      rw [decide_eq_true_eq] at h2
      exact h2 e he rfl
    have h3 : s.socats.filter (fun pid => decide (pid ∈
        s.aliveForwarders.filter (fun pid2 => decide (pid2 ∉ s.socats)))) = [] := by
      rw [List.filter_eq_nil_iff]
      intro pid hpid
      simp only [decide_eq_true_eq]
      intro hmem
      exact absurd hpid (of_decide_eq_true (List.mem_filter.1 hmem).2)
    simp only [cleanup_browsers_trace, cleanup_browsers]
    rw [h1, h3]
    simp

/-- C9 witness: idempotence at the demonstration state. -/
theorem c9_witness :
    cleanup_browsers (cleanup_browsers shutdownDemoState) =
        cleanup_browsers shutdownDemoState ∧
      cleanup_browsers_trace (cleanup_browsers shutdownDemoState) = [] :=
  c9_cleanup_idempotent shutdownDemoState

/-- Demonstration registry holding a single ready slot. -/
def demoReadyPool : List (List Char × SlotInfo) :=
  [(mkBrowserId 0,
    { endpoint := "ws://localhost:8080/abc".data, originalEndpoint := none,
      proxyPort := none, dynamicPort := none, procId := 0, status := .ready })]

/-- C3 counterexample: before the launch pass has completed
(`server_ready = False`), the readiness endpoint returns 503 even though the
registry contains a slot with status ready, so 503 does not hold iff the
ready count is 0. -/
theorem c3_counterexample :
    (handle_ready false 3 demoReadyPool).code = 503 ∧
      readyCount demoReadyPool = 1 := by decide

/-- C3 (amended): `_handle_ready` returns 503 iff the launch pass has not
completed (`server_ready` is false) or the registry is empty. On states the
code can actually produce — every registry entry has status ready — and once
the launch pass has completed, this coincides with the claim: 503 iff the
ready count is 0, and a 200 response reports `browsers_available ≥ 1`. -/
theorem c3_ready_endpoint (serverReady : Bool) (poolSize : Nat)
    (pool : List (List Char × SlotInfo)) :
    ((handle_ready serverReady poolSize pool).code = 503 ↔
      (serverReady = false ∨ pool = [])) ∧
    ((∀ e ∈ pool, e.2.status = SlotStatus.ready) → serverReady = true →
      (((handle_ready serverReady poolSize pool).code = 503 ↔ readyCount pool = 0) ∧
       ((handle_ready serverReady poolSize pool).code = 200 →
         1 ≤ (handle_ready serverReady poolSize pool).browsersAvailable))) := by
  by_cases hcond : serverReady = true ∧ 0 < pool.length
  · have hcode : (handle_ready serverReady poolSize pool).code = 200 := by
      unfold handle_ready
      rw [if_pos hcond]
    constructor
    · rw [hcode]
      constructor
      · intro h; exact absurd h (by decide)
      · intro h
        rcases h with h | h
        · rw [h] at hcond; exact absurd hcond.1 (by decide)
        · rw [h] at hcond; exact absurd hcond.2 (by decide)
    · intro hall _
      have hcounts := counts_of_all_ready hall
      constructor
      · rw [hcode]
        constructor
        · intro h; exact absurd h (by decide)
        · intro h
          rw [hcounts.2] at h
          omega
      · intro _
        have hav : (handle_ready serverReady poolSize pool).browsersAvailable =
            readyCount pool := by
          unfold handle_ready
          rw [if_pos hcond]
        rw [hav, hcounts.2]
        omega
  · have hcode : (handle_ready serverReady poolSize pool).code = 503 := by
      unfold handle_ready
      rw [if_neg hcond]
    constructor
    · rw [hcode]
      constructor
      · intro _
        by_cases hsr : serverReady = true
        · right
          have hlen : ¬ 0 < pool.length := fun hl => hcond ⟨hsr, hl⟩
          have : pool.length = 0 := by omega
          exact List.eq_nil_of_length_eq_zero this
        · left
          simpa using hsr
      · intro _; rfl
    · intro hall hsr
      have hcounts := counts_of_all_ready hall
      have hlen : ¬ 0 < pool.length := fun hl => hcond ⟨hsr, hl⟩
      constructor
      · rw [hcode]
        constructor
        · intro _
          rw [hcounts.2]
          omega
        · intro _; rfl
      · intro h
        rw [hcode] at h
        exact absurd h (by decide)

/-- C3 witness: the amended theorem applied to the demonstration registry
with the launch pass completed. -/
theorem c3_witness :
    ((handle_ready true 3 demoReadyPool).code = 503 ↔ readyCount demoReadyPool = 0) ∧
      ((handle_ready true 3 demoReadyPool).code = 200 →
        1 ≤ (handle_ready true 3 demoReadyPool).browsersAvailable) :=
  (c3_ready_endpoint true 3 demoReadyPool).2 (by decide) rfl

/-- C7: when the forwarding utility cannot be started (`start_socat_proxy`
returned `None`), the slot still reaches status ready and its published
endpoint is exactly the raw discovered dynamic endpoint. -/
theorem c7_socat_fallback (basePort : Nat) (pool : List (List Char × SlotInfo))
    (i : Nat) (lines : List (List Char)) (u : List Char)
    (h : discoverEndpoint lines = some u) :
    (dictFind (mkBrowserId i)
        (launch_browser_instance basePort pool i (.started lines false))).map
        (fun e => (e.status, e.endpoint)) = some (SlotStatus.ready, u) := by
  simp only [launch_browser_instance]
  rw [h, dictFind_dictInsert]
  unfold buildEntry
  cases hep : extractPort u with
  | some d => simp
  | none => simp

/-- C7 witness: the fallback theorem at a concrete discovered endpoint. -/
theorem c7_witness :
    (dictFind (mkBrowserId 0)
        (launch_browser_instance 8080 [] 0
          (.started ["listening at ws://127.0.0.1:54321/abc".data] false))).map
        (fun e => (e.status, e.endpoint)) =
      some (SlotStatus.ready, "ws://127.0.0.1:54321/abc".data) :=
  c7_socat_fallback 8080 [] 0 ["listening at ws://127.0.0.1:54321/abc".data]
    "ws://127.0.0.1:54321/abc".data (by decide)

/-- C8: endpoint discovery yields the stripped first regex match of the
first line that both mentions a WebSocket scheme and contains a well-formed
URI; on a line with several URIs the leftmost match wins; trailing ANSI
escape sequences are cut off by the `[^\s\x1b]` character class; and on the
line `"listening at ws://127.0.0.1:54321/abc"` it yields exactly
`ws://127.0.0.1:54321/abc`. -/
theorem c8_endpoint_discovery :
    (∀ (pre : List (List Char)) (line : List Char) (post : List (List Char))
        (u : List Char),
        (∀ l ∈ pre, containsWsScheme l = false) → findUri line = some u →
          discoverEndpoint (pre ++ line :: post) = some (pyStrip u)) ∧
    discoverEndpoint ["listening at ws://127.0.0.1:54321/abc".data] =
      some "ws://127.0.0.1:54321/abc".data ∧
    findUri "see ws://first/a and ws://second/b".data = some "ws://first/a".data ∧
    discoverEndpoint ["endpoint ws://127.0.0.1:9222/devtools\x1b[0m".data] =
      some "ws://127.0.0.1:9222/devtools".data := by
  refine ⟨?_, by decide, by decide, by decide⟩
  intro pre line post u hpre hf
  induction pre with
  | nil =>
    have hp : processLine line = some (pyStrip u) := by
      rw [processLine, if_pos (findUri_scheme hf), hf]
      rfl
    rw [List.nil_append, discoverEndpoint, hp]
  | cons l pre ih =>
    have hl := hpre l (by simp)
    have hp : processLine l = none := by
      rw [processLine, if_neg (by simp [hl])]
    rw [List.cons_append, discoverEndpoint, hp]
    exact ih (fun x hx => hpre x (by simp [hx]))

/-- C8 witness: discovery over a stream with a leading endpoint-free line. -/
theorem c8_witness :
    discoverEndpoint ["Launching browser".data,
        "listening at ws://127.0.0.1:54321/abc".data] =
      some (pyStrip "ws://127.0.0.1:54321/abc".data) :=
  c8_endpoint_discovery.1 ["Launching browser".data]
    "listening at ws://127.0.0.1:54321/abc".data [] "ws://127.0.0.1:54321/abc".data
    (by decide) (by decide)

/-- C10: on every reachable registry state, every entry was inserted with
status ready and a non-empty endpoint (no operation ever stores busy,
failed or terminated), hence the busy gauge of the metrics endpoint is
always 0 and the total gauge always equals the number of ready entries. -/
theorem c10_registry_invariant (p : List (List Char × SlotInfo))
    (hp : ReachablePool p) :
    (∀ e ∈ p, e.2.status = SlotStatus.ready ∧ e.2.endpoint ≠ []) ∧
    (∀ poolSize, (handle_metrics poolSize p).browsersBusy = 0 ∧
      (handle_metrics poolSize p).browsersTotal = readyCount p) := by
  have hmain : ∀ e ∈ p, e.2.status = SlotStatus.ready ∧ e.2.endpoint ≠ [] := by
    induction hp with
    | init => simp
    | step basePort i o q hq ih =>
      intro e he
      cases o with
      | popenFail => exact ih e he
      | started lines socatOk =>
        simp only [launch_browser_instance] at he
        cases hd : discoverEndpoint lines with
        | none => rw [hd] at he; exact ih e he
        | some u =>
          rw [hd] at he
          rcases mem_dictInsert he with rfl | hem
          · constructor
            · unfold buildEntry
              cases hep : extractPort u with
              | some d => cases socatOk <;> simp
              | none => simp
            · unfold buildEntry
              cases hep : extractPort u with
              | some d =>
                cases socatOk
                · simpa using discoverEndpoint_ne_nil hd
                · intro hemp
                  simp at hemp
              | none => simpa using discoverEndpoint_ne_nil hd
          · exact ih e hem
  refine ⟨hmain, ?_⟩
  intro poolSize
  have hc := counts_of_all_ready (fun e he => (hmain e he).1)
  constructor
  · simpa [handle_metrics] using hc.1
  · simp [handle_metrics, hc.2]

/-- The registry produced by one successful launch, used as a reachable
concrete state. -/
def demoLaunchedPool : List (List Char × SlotInfo) :=
  launch_browser_instance 8080 [] 0
    (.started ["listening at ws://127.0.0.1:54321/abc".data] true)

/-- C10 witness: the invariant instantiated at a concrete reachable
registry. -/
theorem c10_witness :
    (handle_metrics 3 demoLaunchedPool).browsersBusy = 0 ∧
      (handle_metrics 3 demoLaunchedPool).browsersTotal = readyCount demoLaunchedPool :=
  (c10_registry_invariant demoLaunchedPool
    (ReachablePool.step 8080 0 (.started ["listening at ws://127.0.0.1:54321/abc".data] true)
      [] ReachablePool.init)).2 3

theorem takeWhile_append_stop {p : Char → Bool} : ∀ (l m : List Char) (c0 : Char),
    (∀ c ∈ l, p c = true) → p c0 = false →
    (l ++ c0 :: m).takeWhile p = l := by
  intro l
  induction l with
  | nil =>
    intro m c0 _ hc
    simp [List.takeWhile_cons, hc]
  | cons a l ih =>
    intro m c0 h hc
    have ha := h a (by simp)
    simp [List.takeWhile_cons, ha, ih m c0 (fun c hcm => h c (by simp [hcm])) hc]

/-- C5 counterexample: with the bare advertise host `example.com`, the
endpoint `ws://localhost:3001/localhost` is rewritten by textual
substitution everywhere, so the path is not preserved: the result is
`ws://example.com:3001/example.com`, not `ws://example.com:3001/localhost`. -/
theorem c5_counterexample :
    rewrite_endpoint "example.com".data "ws://localhost:3001/localhost".data =
        "ws://example.com:3001/example.com".data ∧
      rewrite_endpoint "example.com".data "ws://localhost:3001/localhost".data ≠
        "ws://example.com:3001/localhost".data := by decide

/-- C5 (amended): for a host:port-form advertise host, rewriting replaces
exactly the host:port portion of a `ws://`/`wss://` endpoint and preserves
the path; for a bare advertise host, rewriting is a textual substitution of
`localhost` and `127.0.0.1` throughout the whole endpoint (so the path is
preserved only when it contains neither substring). Both concrete examples
of the claim hold. -/
theorem c5_host_rewriting :
    (∀ adv host t proto : List Char,
        (proto = "ws://".data ∨ proto = "wss://".data) →
        ':' ∈ adv → adv ≠ "localhost".data → host ≠ [] → (∀ c ∈ host, c ≠ '/') →
        t ≠ [] → (∀ c ∈ t, c ≠ '\n') →
        rewrite_endpoint adv (proto ++ host ++ '/' :: t) = proto ++ adv ++ '/' :: t) ∧
    rewrite_endpoint "example.com".data "ws://localhost:3001/s1".data =
      "ws://example.com:3001/s1".data ∧
    rewrite_endpoint "example.com:9000".data "ws://localhost:3001/s1".data =
      "ws://example.com:9000/s1".data := by
  refine ⟨?_, by decide, by decide⟩
  intro adv host t proto hproto hcolon hadv hhost hslash ht hnl
  have htw : (host ++ '/' :: t).takeWhile (fun c => c != '/') = host := by
    apply takeWhile_append_stop
    · intro c hc
      simpa [bne_iff_ne] using hslash c hc
    · decide
  have htw2 : t.takeWhile (fun c => c != '\n') = t := by
    apply takeWhile_all_eq
    intro c hc
    simpa [bne_iff_ne] using hnl c hc
  have hhostE : ¬ (host.isEmpty = true) := by
    cases host with
    | nil => exact absurd rfl hhost
    | cons a l => simp
  have htE : ¬ (t.isEmpty = true) := by
    cases t with
    | nil => exact absurd rfl ht
    | cons a l => simp
  rcases hproto with rfl | rfl
  · have hep : "ws://".data ++ host ++ '/' :: t ≠ [] := by simp
    have hm : matchHostPathAt ('w' :: 's' :: ':' :: '/' :: '/' :: (host ++ '/' :: t)) =
        some ("ws://".data, '/' :: t) := by
      have h0 : matchHostPathAt ('w' :: 's' :: ':' :: '/' :: '/' :: (host ++ '/' :: t)) =
          hostPathOf "ws://".data (host ++ '/' :: t) := rfl
      rw [h0]
      unfold hostPathOf
      rw [htw, if_neg hhostE, List.drop_left]
      show (if (t.takeWhile (fun c => c != '\n')).isEmpty = true then
          some ("ws://".data, ([] : List Char)) else
          some ("ws://".data, '/' :: t.takeWhile (fun c => c != '\n'))) =
        some ("ws://".data, '/' :: t)
      rw [htw2, if_neg htE]
    have hsearch : searchWsHostPath ('w' :: 's' :: ':' :: '/' :: '/' :: (host ++ '/' :: t)) =
        some ("ws://".data, '/' :: t) := by
      rw [searchWsHostPath, hm]
    unfold rewrite_endpoint
    rw [if_pos ⟨hep, hadv⟩, if_pos hcolon]
    have hsearch2 : searchWsHostPath ("ws://".data ++ host ++ '/' :: t) =
        some ("ws://".data, '/' :: t) := hsearch
    rw [hsearch2]
  · have hep : "wss://".data ++ host ++ '/' :: t ≠ [] := by simp
    have hm : matchHostPathAt ('w' :: 's' :: 's' :: ':' :: '/' :: '/' :: (host ++ '/' :: t)) =
        some ("wss://".data, '/' :: t) := by
      have h0 : matchHostPathAt ('w' :: 's' :: 's' :: ':' :: '/' :: '/' :: (host ++ '/' :: t)) =
          hostPathOf "wss://".data (host ++ '/' :: t) := rfl
      rw [h0]
      unfold hostPathOf
      rw [htw, if_neg hhostE, List.drop_left]
      show (if (t.takeWhile (fun c => c != '\n')).isEmpty = true then
          some ("wss://".data, ([] : List Char)) else
          some ("wss://".data, '/' :: t.takeWhile (fun c => c != '\n'))) =
        some ("wss://".data, '/' :: t)
      rw [htw2, if_neg htE]
    have hsearch : searchWsHostPath ('w' :: 's' :: 's' :: ':' :: '/' :: '/' :: (host ++ '/' :: t)) =
        some ("wss://".data, '/' :: t) := by
      rw [searchWsHostPath, hm]
    unfold rewrite_endpoint
    rw [if_pos ⟨hep, hadv⟩, if_pos hcolon]
    have hsearch2 : searchWsHostPath ("wss://".data ++ host ++ '/' :: t) =
        some ("wss://".data, '/' :: t) := hsearch
    rw [hsearch2]

/-- C5 witness: the host:port branch of the amended theorem at the claim's
own concrete inputs. -/
theorem c5_witness :
    rewrite_endpoint "example.com:9000".data
        ("ws://".data ++ "localhost:3001".data ++ '/' :: "s1".data) =
      "ws://".data ++ "example.com:9000".data ++ '/' :: "s1".data :=
  c5_host_rewriting.1 "example.com:9000".data "localhost:3001".data "s1".data
    "ws://".data (Or.inl rfl) (by decide) (by decide) (by decide) (by decide)
    (by decide) (by decide)

/-- C6 counterexample: a discovered `wss://` endpoint whose forwarder starts
successfully is published as a `ws://` endpoint — the scheme of the
discovered dynamic endpoint is not preserved. -/
theorem c6_counterexample :
    (dictFind (mkBrowserId 0)
        (launch_browser_instance 8080 [] 0
          (.started ["wss://127.0.0.1:5000/s".data] true))).map (fun e => e.endpoint) =
      some "ws://localhost:8080/s".data ∧
    listStartsWith "wss://".data "ws://localhost:8080/s".data = false := by decide

/-- C6 (amended): when socat starts successfully for slot i, the published
endpoint is exactly `ws://localhost:{basePort+i}/{path}` where path is the
portion of the discovered endpoint after its third slash: the fixed external
port `basePort + i` is used (distinct across slots) and the path is
preserved, but the scheme is always `ws://` and is not taken from the
discovered endpoint. -/
theorem c6_fixed_port_publishing (basePort : Nat) (pool : List (List Char × SlotInfo))
    (i : Nat) (lines : List (List Char)) (u : List Char) (d : Nat)
    (h : discoverEndpoint lines = some u) (hp : extractPort u = some d) :
    (dictFind (mkBrowserId i)
        (launch_browser_instance basePort pool i (.started lines true))).map
        (fun e => (e.status, e.endpoint, e.proxyPort)) =
      some (SlotStatus.ready,
        ("ws://localhost:".data ++ natToDigits (basePort + i) ++ '/' :: pathFromEndpoint u,
         some (basePort + i))) ∧
    (∀ j : Nat, j ≠ i → basePort + j ≠ basePort + i) := by
  constructor
  · simp only [launch_browser_instance]
    rw [h, dictFind_dictInsert]
    unfold buildEntry
    rw [hp]
    simp [browserIndexOf_mkBrowserId]
  · intro j hj
    omega

/-- C6 witness: the amended theorem at a concrete discovered endpoint for
slot 1 with base port 9000. -/
theorem c6_witness :
    (dictFind (mkBrowserId 1)
        (launch_browser_instance 9000 [] 1
          (.started ["DevTools listening on ws://127.0.0.1:4444/session/77".data] true))).map
        (fun e => (e.status, e.endpoint, e.proxyPort)) =
      some (SlotStatus.ready,
        ("ws://localhost:".data ++ natToDigits (9000 + 1) ++
            '/' :: pathFromEndpoint "ws://127.0.0.1:4444/session/77".data,
         some (9000 + 1))) :=
  (c6_fixed_port_publishing 9000 [] 1
    ["DevTools listening on ws://127.0.0.1:4444/session/77".data]
    "ws://127.0.0.1:4444/session/77".data 4444 (by decide) (by decide)).1
